import Mathlib

/-!
Shallow embedding of the mission-control deliverable pipeline:

* the `POST /api/tasks/[id]/deliverables/[deliverableId]/pdf` route handler
  (`renderToPdf`): home expansion, path normalization, symlink resolution,
  the sandbox containment check against the configured roots, the headless
  rendering engine invocation, and the find-or-insert publication of the
  rendered PDF deliverable record;
* the viewer-side `handleOpen` decision function of `DeliverablesList`.

The filesystem is modelled abstractly (`FS`): `existsSync` is a predicate on
path strings and `realpathSync` is a partial function (`none` models a
throw).  External effects (engine launch, navigation, PDF write, teardown,
record insertion, event broadcast) are recorded in an event trace, and each
awaited external call carries a fault flag modelling whether that call
throws.  String primitives are implemented over the character list so every
definition evaluates inside the kernel; paths use POSIX separators, matching
the deployment the route targets.
-/

namespace MissionControl

/-! ### String primitives (kernel-computable models of the JS operations) -/

/-- Model of `s.startsWith(pre)`. -/
def strStartsWith (s pre : String) : Bool :=
  pre.data.isPrefixOf s.data

/-- Model of `s.endsWith(suf)`. -/
def strEndsWith (s suf : String) : Bool :=
  suf.data.isSuffixOf s.data

/-- Drop the first `n` characters of `s`. -/
def strDrop (s : String) (n : Nat) : String :=
  ⟨s.data.drop n⟩

/-- Drop the last `n` characters of `s`. -/
def strDropRight (s : String) (n : Nat) : String :=
  ⟨s.data.take (s.data.length - n)⟩

/-- ASCII lower-casing, character by character. -/
def strToLower (s : String) : String :=
  ⟨s.data.map Char.toLower⟩

/-- POSIX path separator (`path.sep`). -/
def pathSep : String := "/"

/-! ### Home expansion and path normalization -/

/-- `expandHome` from the route module: `p.replace(/^~/, home)` where `home`
is `process.env.HOME || ''`.  The regex `^~` matches a single leading tilde,
which is replaced by `home` (possibly the empty string). -/
def expandHome (home : String) (p : String) : String :=
  if strStartsWith p "~" then home ++ strDrop p 1 else p

/-- One segment step of Node `path.posix.normalize`'s `normalizeString`:
empty and `.` segments are dropped, `..` pops the previous segment (or is
kept / dropped at the top depending on `allowAboveRoot`, i.e. on whether the
path is relative). -/
def normSegs (allowAboveRoot : Bool) : List String → List String → List String
  | [], acc => acc.reverse
  | seg :: rest, acc =>
    if seg = "" ∨ seg = "." then normSegs allowAboveRoot rest acc
    else if seg = ".." then
      match acc with
      | [] => normSegs allowAboveRoot rest (if allowAboveRoot then [".."] else [])
      | top :: tl =>
        if top = ".." then
          normSegs allowAboveRoot rest (if allowAboveRoot then ".." :: top :: tl else top :: tl)
        else normSegs allowAboveRoot rest tl
    else normSegs allowAboveRoot rest (seg :: acc)

/-- Split a path string on `/`. -/
def splitSlashAux : List Char → List Char → List String
  | [], acc => [⟨acc.reverse⟩]
  | c :: cs, acc =>
    if c = '/' then ⟨acc.reverse⟩ :: splitSlashAux cs [] else splitSlashAux cs (c :: acc)

/-- Split a path string on `/` (model of `p.split('/')`). -/
def splitSlash (s : String) : List String :=
  splitSlashAux s.data []

/-- Join segments with `/`. -/
def joinSlash : List String → String
  | [] => ""
  | [s] => s
  | s :: rest => s ++ "/" ++ joinSlash rest

/-- Model of Node `path.posix.normalize`. -/
def normalize (p : String) : String :=
  if p = "" then "."
  else
    let isAbs := strStartsWith p "/"
    let trailingSep := strEndsWith p "/"
    let body := joinSlash (normSegs (!isAbs) (splitSlash p) [])
    if body = "" then
      if isAbs then "/" else if trailingSep then "./" else "."
    else
      let body2 := if trailingSep then body ++ "/" else body
      if isAbs then "/" ++ body2 else body2

/-! ### The HTML extension pattern `/\.html?$/i` -/

/-- Whether the case-insensitive regex `/\.html?$/i` matches `s`. -/
def isHtmlPath (s : String) : Bool :=
  strEndsWith (strToLower s) ".html" || strEndsWith (strToLower s) ".htm"

/-- Model of `s.replace(/\.html?$/i, repl)`: the matched trailing extension
(`.html` or `.htm`, case-insensitive) is replaced by `repl`; a string the
regex does not match is returned unchanged. -/
def replaceHtmlExtWith (repl : String) (s : String) : String :=
  if strEndsWith (strToLower s) ".html" then strDropRight s 5 ++ repl
  else if strEndsWith (strToLower s) ".htm" then strDropRight s 4 ++ repl
  else s

/-- The derived title of the inserted PDF record:
`` `${deliverable.title.replace(/\.html?$/i, '')}.pdf` ``. -/
def deriveTitle (title : String) : String :=
  replaceHtmlExtWith "" title ++ ".pdf"

/-! ### Configuration (environment variables) -/

/-- The environment variables the route reads.  `none` models an unset
variable. -/
structure Env where
  HOME : Option String
  WORKSPACE_BASE_PATH : Option String
  PROJECTS_PATH : Option String

/-- JS `v || dflt` on an optional environment value: unset and the empty
string are both falsy. -/
def envOr (v : Option String) (dflt : String) : String :=
  match v with
  | none => dflt
  | some s => if s = "" then dflt else s

/-- `process.env.HOME || ''`. -/
def homeOf (env : Env) : String :=
  envOr env.HOME ""

/-- `getAllowedRoots` from the route module. -/
def getAllowedRoots (env : Env) : List String :=
  let workspaceBase := expandHome (homeOf env) (envOr env.WORKSPACE_BASE_PATH "~/Documents/Shared")
  let projectsBase := expandHome (homeOf env) (envOr env.PROJECTS_PATH "~/Documents/Shared/projects")
  [workspaceBase, projectsBase]

/-! ### Filesystem model -/

/-- Abstract filesystem: `existsSync` says whether a path string names an
existing entry; `realpathSync` resolves a path to its symlink-free canonical
form, `none` modelling a thrown error. -/
structure FS where
  existsSync : String → Bool
  realpathSync : String → Option String

/-- `getAllowedRoots().filter(existsSync).map(realpathSync)`: the effective
allow-list.  `none` models a `realpathSync` throw on an existing root, which
the route does not catch. -/
def effectiveRoots (env : Env) (fs : FS) : Option (List String) :=
  ((getAllowedRoots env).filter fs.existsSync).mapM fs.realpathSync

/-- The containment check of the route:
`allowedRoots.some((root) => resolvedSource === root || resolvedSource.startsWith(root + path.sep))`. -/
def isAllowed (resolvedSource : String) (allowedRoots : List String) : Bool :=
  allowedRoots.any fun root =>
    resolvedSource == root || strStartsWith resolvedSource (root ++ pathSep)

/-- `path.normalize(expandHome(deliverable.path))`. -/
def sourcePathOf (env : Env) (rawPath : String) : String :=
  normalize (expandHome (homeOf env) rawPath)

/-! ### Deliverable records and store -/

/-- A row of `task_deliverables`, restricted to the columns the pipeline
reads and writes. -/
structure Deliverable where
  id : String
  task_id : String
  deliverable_type : String
  title : String
  path : Option String
  description : String
deriving DecidableEq, Repr

/-- `SELECT * FROM task_deliverables WHERE id = ? AND task_id = ?`. -/
def getDeliverable (db : List Deliverable) (deliverableId taskId : String) : Option Deliverable :=
  db.find? fun d => d.id == deliverableId && d.task_id == taskId

/-- `SELECT * FROM task_deliverables WHERE task_id = ? AND
deliverable_type = 'file' AND path = ? LIMIT 1`. -/
def findPdf (db : List Deliverable) (taskId pdfPath : String) : Option Deliverable :=
  db.find? fun d =>
    d.task_id == taskId && d.deliverable_type == "file" && d.path == some pdfPath

/-! ### Effects, faults and responses -/

/-- Externally visible effects of one route invocation, in order. -/
inductive Ev where
  /-- the containment check ran on this resolved path -/
  | sandboxCheck (p : String)
  /-- `chromium.launch(...)` succeeded: an engine process now exists -/
  | launch
  /-- `browser.newPage()` -/
  | newPage
  /-- `page.goto(url, { waitUntil: 'networkidle' })` -/
  | goto (url : String)
  /-- `page.pdf({ path, ... })`: the PDF file was written -/
  | pdf (p : String)
  /-- `browser.close()`: the engine process was torn down -/
  | close
  /-- the `INSERT INTO task_deliverables ...` ran with this record -/
  | insert (d : Deliverable)
  /-- `broadcast({ type: 'deliverable_added', payload })` -/
  | broadcast (payload : Option Deliverable)
deriving DecidableEq, Repr

/-- Fault injection for the awaited calls inside the `try` block: a `true`
field means the corresponding call throws. -/
structure Faults where
  launch : Bool
  newPage : Bool
  goto : Bool
  pdf : Bool
  close : Bool
  insert : Bool
  reread : Bool
  broadcast : Bool
deriving DecidableEq, Repr

/-- The fault-free execution. -/
def noFaults : Faults :=
  ⟨false, false, false, false, false, false, false, false⟩

/-- The route's possible responses. -/
inductive Resp where
  /-- `NextResponse.json({ error }, { status })` -/
  | json (status : Nat) (error : String)
  /-- `NextResponse.json({ success: true, pdfPath, deliverable })` -/
  | success (pdfPath : String) (deliverable : Option Deliverable)
  /-- an exception escaped the handler (only possible at the
  `allowedRoots` computation, which is outside the `try`) -/
  | thrown
deriving DecidableEq, Repr

/-- HTTP status of a response (`success` bodies go out as 200, an uncaught
throw surfaces as the framework's 500). -/
def statusOf : Resp → Nat
  | .json s _ => s
  | .success _ _ => 200
  | .thrown => 500

/-- The catch-all failure response of the `try` block. -/
def renderResp500 : Resp :=
  .json 500 "Failed to generate PDF"

/-- The containment-failure response. -/
def forbiddenResp : Resp :=
  .json 403 "Source path is outside allowed directories"

/-- Result of one route invocation: the response, the store afterwards, and
the trace of external effects. -/
structure RunResult where
  resp : Resp
  db : List Deliverable
  trace : List Ev
deriving DecidableEq, Repr

/-- The record the route inserts:
`INSERT INTO task_deliverables (id, task_id, deliverable_type, title, path, description)
VALUES (newId, taskId, 'file', derivedTitle, pdfPath, 'Generated from HTML deliverable')`. -/
def newPdfRec (newId taskId : String) (deliverable : Deliverable) (pdfPath : String) : Deliverable :=
  ⟨newId, taskId, "file", deriveTitle deliverable.title, some pdfPath,
    "Generated from HTML deliverable"⟩

/-- Engine-effect trace of a fully successful render. -/
def renderTrace (resolvedSource pdfPath : String) : List Ev :=
  [.launch, .newPage, .goto ("file://" ++ resolvedSource), .pdf pdfPath, .close]

/-- The body of the `try { ... } catch { 500 }` block of the route: engine
launch, navigation, PDF write, teardown, then the find-or-insert of the PDF
deliverable record and the `deliverable_added` broadcast. -/
def tryRender (faults : Faults) (newId : String) (db : List Deliverable)
    (taskId : String) (deliverable : Deliverable)
    (resolvedSource pdfPath : String) : RunResult :=
  if faults.launch then ⟨renderResp500, db, []⟩
  else if faults.newPage then ⟨renderResp500, db, [.launch]⟩
  else if faults.goto then ⟨renderResp500, db, [.launch, .newPage]⟩
  else if faults.pdf then
    ⟨renderResp500, db, [.launch, .newPage, .goto ("file://" ++ resolvedSource)]⟩
  else if faults.close then
    ⟨renderResp500, db,
      [.launch, .newPage, .goto ("file://" ++ resolvedSource), .pdf pdfPath]⟩
  else
    match findPdf db taskId pdfPath with
    | some existingPdf =>
      ⟨.success pdfPath (some existingPdf), db, renderTrace resolvedSource pdfPath⟩
    | none =>
      if faults.insert then ⟨renderResp500, db, renderTrace resolvedSource pdfPath⟩
      else if faults.reread then
        ⟨renderResp500, db ++ [newPdfRec newId taskId deliverable pdfPath],
          renderTrace resolvedSource pdfPath ++ [.insert (newPdfRec newId taskId deliverable pdfPath)]⟩
      else if faults.broadcast then
        ⟨renderResp500, db ++ [newPdfRec newId taskId deliverable pdfPath],
          renderTrace resolvedSource pdfPath ++ [.insert (newPdfRec newId taskId deliverable pdfPath)]⟩
      else
        ⟨.success pdfPath
            ((db ++ [newPdfRec newId taskId deliverable pdfPath]).find? fun x => x.id == newId),
          db ++ [newPdfRec newId taskId deliverable pdfPath],
          renderTrace resolvedSource pdfPath ++
            [.insert (newPdfRec newId taskId deliverable pdfPath),
             .broadcast ((db ++ [newPdfRec newId taskId deliverable pdfPath]).find? fun x => x.id == newId)]⟩

/-- The `POST` route handler (`renderToPdf`), as a function of the
environment, the filesystem, the injected faults, the id `crypto.randomUUID()`
would return, the store contents, and the route parameters. -/
def POST (env : Env) (fs : FS) (faults : Faults) (newId : String)
    (db : List Deliverable) (taskId deliverableId : String) : RunResult :=
  match getDeliverable db deliverableId taskId with
  | none => ⟨.json 404 "Deliverable not found", db, []⟩
  | some deliverable =>
    match deliverable.path with
    | none => ⟨.json 400 "Deliverable is not a file path", db, []⟩
    | some rawPath =>
      if rawPath = "" then ⟨.json 400 "Deliverable is not a file path", db, []⟩
      else if deliverable.deliverable_type ≠ "file" then
        ⟨.json 400 "Deliverable is not a file path", db, []⟩
      else if isHtmlPath rawPath then
        if fs.existsSync (sourcePathOf env rawPath) then
          match fs.realpathSync (sourcePathOf env rawPath) with
          | none => ⟨.json 400 "Unable to resolve source file path", db, []⟩
          | some resolvedSource =>
            match effectiveRoots env fs with
            | none => ⟨.thrown, db, []⟩
            | some allowedRoots =>
              if isAllowed resolvedSource allowedRoots then
                ⟨(tryRender faults newId db taskId deliverable resolvedSource
                    (replaceHtmlExtWith ".pdf" (sourcePathOf env rawPath))).resp,
                  (tryRender faults newId db taskId deliverable resolvedSource
                    (replaceHtmlExtWith ".pdf" (sourcePathOf env rawPath))).db,
                  .sandboxCheck resolvedSource ::
                    (tryRender faults newId db taskId deliverable resolvedSource
                      (replaceHtmlExtWith ".pdf" (sourcePathOf env rawPath))).trace⟩
              else ⟨forbiddenResp, db, [.sandboxCheck resolvedSource]⟩
        else ⟨.json 404 "Source file not found", db, []⟩
      else ⟨.json 400 "PDF generation currently supports HTML deliverables only", db, []⟩

/-! ### The viewer's `handleOpen` (DeliverablesList.tsx) -/

/-- Outcome of `fetch(previewUrl)` in `handleOpen`: the response was ok, the
response was not ok, or the fetch itself threw. -/
inductive ProbeOutcome where
  | ok
  | notOk
  | throws
deriving DecidableEq, Repr

/-- What `handleOpen` ends up doing. -/
inductive OpenAction where
  /-- early return: nothing opened -/
  | noop
  /-- `window.open(u, '_blank')` -/
  | openWindow (u : String)
deriving DecidableEq, Repr

/-- `/api/files/preview?path=${encodeURIComponent(path)}`; the URI encoder is
a parameter. -/
def previewUrl (enc : String → String) (p : String) : String :=
  "/api/files/preview?path=" ++ enc p

/-- `/api/files/download?path=${encodeURIComponent(path)}&raw=true`. -/
def downloadUrl (enc : String → String) (p : String) : String :=
  "/api/files/download?path=" ++ enc p ++ "&raw=true"

/-- The `handleOpen` handler of `DeliverablesList`. -/
def handleOpen (enc : String → String) (d : Deliverable)
    (probe : ProbeOutcome) : OpenAction :=
  match d.path with
  | none => .noop
  | some p =>
    if p = "" then .noop
    else if d.deliverable_type = "url" then .openWindow p
    else
      match probe with
      | .ok => .openWindow (previewUrl enc p)
      | .notOk => .openWindow (downloadUrl enc p)
      | .throws => .openWindow (downloadUrl enc p)

/-! ### Derived notions used by the statements -/

/-- The paths on which a containment check ran during an invocation. -/
def checksIn (t : List Ev) : List String :=
  t.filterMap fun e =>
    match e with
    | .sandboxCheck p => some p
    | _ => none

/-- The dedup key of a stored record: `(task_id, path)` for a `file`-typed
record with a path, nothing otherwise. -/
def fileKey (d : Deliverable) : Option (String × String) :=
  if d.deliverable_type = "file" then d.path.map (fun p => (d.task_id, p)) else none

/-- The exact-string dedup invariant: no two stored records share a
`(task_id, deliverable_type = file, path)` triple. -/
def dedupOk (db : List Deliverable) : Prop :=
  db.Pairwise fun a b => fileKey a = none ∨ fileKey a ≠ fileKey b

/-! ### Concrete scenarios -/

/-- Roots configuration: both roots point at `/real`, no home directory. -/
def envA : Env := ⟨none, some "/real", some "/real"⟩

/-- A filesystem in which `/link` is a symlink to the real directory
`/real`: the two spellings `/link/doc.html` and `/real/doc.html` (and
likewise the derived `.pdf` spellings) resolve to the same canonical file. -/
def fsA : FS where
  existsSync := fun s => ["/real", "/link/doc.html", "/real/doc.html"].contains s
  realpathSync := fun s =>
    if s = "/real" then some "/real"
    else if s = "/link/doc.html" then some "/real/doc.html"
    else if s = "/real/doc.html" then some "/real/doc.html"
    else if s = "/link/doc.pdf" then some "/real/doc.pdf"
    else if s = "/real/doc.pdf" then some "/real/doc.pdf"
    else none

/-- Source deliverable spelled through the symlink. -/
def dA1 : Deliverable := ⟨"s1", "t", "file", "Doc.html", some "/link/doc.html", ""⟩

/-- The same file spelled directly. -/
def dA2 : Deliverable := ⟨"s2", "t", "file", "Doc.html", some "/real/doc.html", ""⟩

/-- Store holding the two spellings of the same source file. -/
def dbA : List Deliverable := [dA1, dA2]

/-- A filesystem in which `/real/link.html` is a symlink whose target
`/outside/doc.html` lies outside every root. -/
def fsB : FS where
  existsSync := fun s => ["/real", "/real/link.html"].contains s
  realpathSync := fun s =>
    if s = "/real" then some "/real"
    else if s = "/real/link.html" then some "/outside/doc.html"
    else none

/-- Deliverable whose pre-resolution path string lies under the root. -/
def dB1 : Deliverable := ⟨"s1", "t", "file", "Link.html", some "/real/link.html", ""⟩

/-- Store for the symlink-escape scenario. -/
def dbB : List Deliverable := [dB1]

/-- A non-HTML deliverable. -/
def dC1 : Deliverable := ⟨"s1", "t", "file", "notes.txt", some "/real/notes.txt", ""⟩

/-- Store for the unsupported-extension scenario. -/
def dbC : List Deliverable := [dC1]

/-- Execution in which `page.goto` rejects. -/
def gotoFault : Faults := ⟨false, false, true, false, false, false, false, false⟩

/-- Execution in which the `INSERT` statement throws. -/
def insertFault : Faults := ⟨false, false, false, false, false, true, false, false⟩

/-- Execution in which the `broadcast` call throws. -/
def broadcastFault : Faults := ⟨false, false, false, false, false, false, false, true⟩

/-! ### Helper lemmas -/

theorem find?_append_some {α} {p : α → Bool} {l1 l2 : List α} {a : α}
    (h : l1.find? p = some a) : (l1 ++ l2).find? p = some a := by
  rw [List.find?_append, h]
  rfl

theorem find?_append_none {α} {p : α → Bool} {l1 l2 : List α}
    (h : l1.find? p = none) : (l1 ++ l2).find? p = l2.find? p := by
  rw [List.find?_append, h]
  rfl

theorem empty_append_str (s : String) : "" ++ s = s := by
  cases s
  rfl

/-- Reduce `POST` to its post-guard stage: once the deliverable is found, is
a non-empty `file` path matching the HTML pattern, exists on disk, resolves,
and the roots canonicalize, the invocation is the containment check followed
by the `try` block. -/
theorem POST_guards (env : Env) (fs : FS) (faults : Faults) (newId : String)
    (db : List Deliverable) (taskId deliverableId : String) (d : Deliverable)
    (rawPath resolvedSource : String) (roots : List String)
    (hd : getDeliverable db deliverableId taskId = some d)
    (hp : d.path = some rawPath) (hne : rawPath ≠ "")
    (hty : d.deliverable_type = "file") (hhtml : isHtmlPath rawPath = true)
    (hex : fs.existsSync (sourcePathOf env rawPath) = true)
    (hres : fs.realpathSync (sourcePathOf env rawPath) = some resolvedSource)
    (hroots : effectiveRoots env fs = some roots) :
    POST env fs faults newId db taskId deliverableId =
      if isAllowed resolvedSource roots then
        ⟨(tryRender faults newId db taskId d resolvedSource
            (replaceHtmlExtWith ".pdf" (sourcePathOf env rawPath))).resp,
          (tryRender faults newId db taskId d resolvedSource
            (replaceHtmlExtWith ".pdf" (sourcePathOf env rawPath))).db,
          .sandboxCheck resolvedSource ::
            (tryRender faults newId db taskId d resolvedSource
              (replaceHtmlExtWith ".pdf" (sourcePathOf env rawPath))).trace⟩
      else ⟨forbiddenResp, db, [.sandboxCheck resolvedSource]⟩ := by
  unfold POST
  simp only [hd, hp, hne, hty, hhtml, hex, hres, hroots, ne_eq, not_false_eq_true,
    not_true_eq_false, ite_false, ite_true, if_true, if_false]

/-- Every outcome of the `try` block is either the catch-all 500 or a
success carrying the derived pdf path. -/
theorem tryRender_resp_cases (faults : Faults) (newId : String) (db : List Deliverable)
    (taskId : String) (d : Deliverable) (rs pp : String) :
    (tryRender faults newId db taskId d rs pp).resp = renderResp500 ∨
      ∃ od, (tryRender faults newId db taskId d rs pp).resp = Resp.success pp od := by
  unfold tryRender
  repeat' split
  all_goals first
    | exact Or.inl rfl
    | exact Or.inr ⟨_, rfl⟩

/-- The `try` block never produces the Forbidden response. -/
theorem tryRender_not_forbidden (faults : Faults) (newId : String) (db : List Deliverable)
    (taskId : String) (d : Deliverable) (rs pp : String) :
    (tryRender faults newId db taskId d rs pp).resp ≠ forbiddenResp := by
  rcases tryRender_resp_cases faults newId db taskId d rs pp with h | ⟨od, h⟩ <;>
    rw [h] <;> simp [renderResp500, forbiddenResp]

/-- The `try` block performs no containment check. -/
theorem tryRender_checks (faults : Faults) (newId : String) (db : List Deliverable)
    (taskId : String) (d : Deliverable) (rs pp : String) :
    checksIn (tryRender faults newId db taskId d rs pp).trace = [] := by
  unfold tryRender
  repeat' split
  all_goals simp [checksIn, renderTrace]

/-- The only record the `try` block can insert is the derived one. -/
theorem tryRender_insert_mem (faults : Faults) (newId : String) (db : List Deliverable)
    (taskId : String) (d : Deliverable) (rs pp : String) (rec : Deliverable)
    (h : Ev.insert rec ∈ (tryRender faults newId db taskId d rs pp).trace) :
    rec = newPdfRec newId taskId d pp := by
  unfold tryRender at h
  repeat' split at h
  all_goals simp [renderTrace] at h
  all_goals exact h

/-- The `try` block leaves the store unchanged, or appends exactly the
derived record after its dedup lookup found nothing. -/
theorem tryRender_db_cases (faults : Faults) (newId : String) (db : List Deliverable)
    (taskId : String) (d : Deliverable) (rs pp : String) :
    (tryRender faults newId db taskId d rs pp).db = db ∨
      (findPdf db taskId pp = none ∧
        (tryRender faults newId db taskId d rs pp).db = db ++ [newPdfRec newId taskId d pp]) := by
  unfold tryRender
  repeat' split
  all_goals first
    | exact Or.inl rfl
    | exact Or.inr ⟨by assumption, rfl⟩

/-- A whole invocation leaves the store unchanged, or appends exactly one
derived record whose dedup key was previously absent. -/
theorem POST_db_cases (env : Env) (fs : FS) (faults : Faults) (newId : String)
    (db : List Deliverable) (taskId deliverableId : String) :
    (POST env fs faults newId db taskId deliverableId).db = db ∨
      ∃ pp d2, findPdf db taskId pp = none ∧
        (POST env fs faults newId db taskId deliverableId).db =
          db ++ [newPdfRec newId taskId d2 pp] := by
  unfold POST
  repeat' split
  all_goals try exact Or.inl rfl
  rcases tryRender_db_cases faults newId db taskId _ _ _ with h | ⟨h1, h2⟩
  · exact Or.inl h
  · exact Or.inr ⟨_, _, h1, h2⟩

/-- `fileKey` of the record the route inserts. -/
theorem fileKey_newPdfRec (newId taskId : String) (d : Deliverable) (pp : String) :
    fileKey (newPdfRec newId taskId d pp) = some (taskId, pp) := rfl

/-- If the dedup lookup finds nothing, no stored record carries the key. -/
theorem findPdf_none_key (db : List Deliverable) (taskId pp : String)
    (h : findPdf db taskId pp = none) :
    ∀ a ∈ db, fileKey a ≠ some (taskId, pp) := by
  rw [findPdf, List.find?_eq_none] at h
  intro a ha hk
  have hpred := h a ha
  unfold fileKey at hk
  by_cases hty : a.deliverable_type = "file"
  · rw [if_pos hty] at hk
    cases hpa : a.path with
    | none => rw [hpa] at hk; simp at hk
    | some q =>
      rw [hpa] at hk
      simp only [Option.map_some', Option.some.injEq, Prod.mk.injEq] at hk
      obtain ⟨h1, h2⟩ := hk
      exact hpred (by simp [hty, hpa, h1, h2])
  · rw [if_neg hty] at hk
    simp at hk

/-- Appending a record whose key is fresh preserves the dedup invariant. -/
theorem dedupOk_append (db : List Deliverable) (r : Deliverable) (h : dedupOk db)
    (hnew : ∀ a ∈ db, fileKey a = none ∨ fileKey a ≠ fileKey r) :
    dedupOk (db ++ [r]) := by
  rw [dedupOk, List.pairwise_append]
  refine ⟨h, List.pairwise_singleton _ _, ?_⟩
  intro a ha b hb
  have hb2 : b = r := by simpa using hb
  subst hb2
  exact hnew a ha

/-- `checksIn` steps over the containment-check event. -/
theorem checksIn_cons_sandbox (p : String) (t : List Ev) :
    checksIn (Ev.sandboxCheck p :: t) = p :: checksIn t := rfl

/-- `find?` by a fresh id over an append finds the appended record. -/
theorem find?_id_eq (db : List Deliverable) (r : Deliverable) (newId : String)
    (hid : r.id = newId) (hfresh : ∀ x ∈ db, x.id ≠ newId) :
    ((db ++ [r]).find? fun x => x.id == newId) = some r := by
  rw [find?_append_none]
  · simp [List.find?, hid]
  · rw [List.find?_eq_none]
    intro x hx
    simp [hfresh x hx]

/-- The fault-free `try` block with no matching record: render, insert the
derived record, broadcast it, and return it. -/
theorem tryRender_noFaults_insert (newId : String) (db : List Deliverable)
    (taskId : String) (d : Deliverable) (rs pp : String)
    (hnone : findPdf db taskId pp = none)
    (hfresh : ∀ x ∈ db, x.id ≠ newId) :
    tryRender noFaults newId db taskId d rs pp =
      ⟨.success pp (some (newPdfRec newId taskId d pp)),
        db ++ [newPdfRec newId taskId d pp],
        renderTrace rs pp ++
          [.insert (newPdfRec newId taskId d pp),
           .broadcast (some (newPdfRec newId taskId d pp))]⟩ := by
  have hcreated := find?_id_eq db (newPdfRec newId taskId d pp) newId rfl hfresh
  unfold tryRender
  simp [noFaults, hnone, hcreated]

/-- A `try` block whose engine steps all succeed and whose dedup lookup
finds an existing record returns it, mutating nothing. -/
theorem tryRender_existing (faults : Faults) (newId : String) (db : List Deliverable)
    (taskId : String) (d : Deliverable) (rs pp : String) (e : Deliverable)
    (hfl : faults.launch = false) (hnp : faults.newPage = false) (hg : faults.goto = false)
    (hpd : faults.pdf = false) (hc : faults.close = false)
    (hsome : findPdf db taskId pp = some e) :
    tryRender faults newId db taskId d rs pp =
      ⟨.success pp (some e), db, renderTrace rs pp⟩ := by
  unfold tryRender
  simp [hfl, hnp, hg, hpd, hc, hsome]

/-- Any engine-step fault yields the catch-all 500. -/
theorem tryRender_engine_fault (faults : Faults) (newId : String) (db : List Deliverable)
    (taskId : String) (d : Deliverable) (rs pp : String)
    (h : (faults.launch || faults.newPage || faults.goto || faults.pdf || faults.close) = true) :
    (tryRender faults newId db taskId d rs pp).resp = renderResp500 := by
  unfold tryRender
  obtain ⟨fl, fnp, fg, fp, fc, fi, fr, fb⟩ := faults
  simp only [Bool.or_eq_true] at h
  cases fl <;> cases fnp <;> cases fg <;> cases fp <;> cases fc <;> simp_all

/-- Publication-step faults after a successful render: the insert throwing
leaves the store unchanged; the re-read or the broadcast throwing happens
after the insert ran. -/
theorem tryRender_publish_fault (faults : Faults) (newId : String) (db : List Deliverable)
    (taskId : String) (d : Deliverable) (rs pp : String)
    (hfl : faults.launch = false) (hnp : faults.newPage = false) (hg : faults.goto = false)
    (hpd : faults.pdf = false) (hc : faults.close = false)
    (hnone : findPdf db taskId pp = none) :
    (faults.insert = true →
      tryRender faults newId db taskId d rs pp = ⟨renderResp500, db, renderTrace rs pp⟩) ∧
    (faults.insert = false → faults.reread = true →
      tryRender faults newId db taskId d rs pp =
        ⟨renderResp500, db ++ [newPdfRec newId taskId d pp],
          renderTrace rs pp ++ [.insert (newPdfRec newId taskId d pp)]⟩) ∧
    (faults.insert = false → faults.reread = false → faults.broadcast = true →
      tryRender faults newId db taskId d rs pp =
        ⟨renderResp500, db ++ [newPdfRec newId taskId d pp],
          renderTrace rs pp ++ [.insert (newPdfRec newId taskId d pp)]⟩) := by
  refine ⟨fun hi => ?_, fun hi hr => ?_, fun hi hr hb => ?_⟩
  · unfold tryRender
    simp [hfl, hnp, hg, hpd, hc, hnone, hi]
  · unfold tryRender
    simp [hfl, hnp, hg, hpd, hc, hnone, hi, hr]
  · unfold tryRender
    simp [hfl, hnp, hg, hpd, hc, hnone, hi, hr, hb]

/-! ### The claims -/

/-- C1: renderToPdf's sandbox check accepts a path exactly when its
symlink-resolved canonical form equals one of the canonicalized existing
roots or starts with such a root followed by the path separator; a resolved
path outside every root (e.g. a symlink target) draws the Forbidden
response, a path exactly equal to a root is accepted, and an empty effective
root list rejects every path. -/
theorem c1_containment_iff (env : Env) (fs : FS) (faults : Faults) (newId : String)
    (db : List Deliverable) (taskId deliverableId : String) (d : Deliverable)
    (rawPath resolvedSource : String) (roots : List String)
    (hd : getDeliverable db deliverableId taskId = some d)
    (hp : d.path = some rawPath) (hne : rawPath ≠ "")
    (hty : d.deliverable_type = "file") (hhtml : isHtmlPath rawPath = true)
    (hex : fs.existsSync (sourcePathOf env rawPath) = true)
    (hres : fs.realpathSync (sourcePathOf env rawPath) = some resolvedSource)
    (hroots : effectiveRoots env fs = some roots) :
    (¬ (POST env fs faults newId db taskId deliverableId).resp = forbiddenResp ↔
      ∃ r ∈ roots, resolvedSource = r ∨
        strStartsWith resolvedSource (r ++ pathSep) = true) ∧
    (roots = [] → (POST env fs faults newId db taskId deliverableId).resp = forbiddenResp) ∧
    (resolvedSource ∈ roots →
      ¬ (POST env fs faults newId db taskId deliverableId).resp = forbiddenResp) := by
  rw [POST_guards env fs faults newId db taskId deliverableId d rawPath resolvedSource roots
    hd hp hne hty hhtml hex hres hroots]
  have hiff : isAllowed resolvedSource roots = true ↔
      ∃ r ∈ roots, resolvedSource = r ∨
        strStartsWith resolvedSource (r ++ pathSep) = true := by
    simp [isAllowed, List.any_eq_true]
  by_cases hA : isAllowed resolvedSource roots = true
  · rw [if_pos hA]
    refine ⟨⟨fun _ => hiff.mp hA, fun _ => tryRender_not_forbidden _ _ _ _ _ _ _⟩, ?_, ?_⟩
    · intro hroots0
      subst hroots0
      exact absurd hA (by simp [isAllowed])
    · intro _
      exact tryRender_not_forbidden _ _ _ _ _ _ _
  · rw [if_neg hA]
    refine ⟨⟨fun hcontra => absurd rfl hcontra, fun hex2 => absurd (hiff.mpr hex2) hA⟩,
      fun _ => rfl, ?_⟩
    intro hmem
    have hAllowed : isAllowed resolvedSource roots = true := by
      unfold isAllowed
      rw [List.any_eq_true]
      exact ⟨resolvedSource, hmem, by simp⟩
    exact absurd hAllowed hA

/-- C1 witness: a source whose pre-resolution string lies under the root
`/real` but whose symlink target `/outside/doc.html` lies outside every
root. -/
theorem c1_containment_iff_witness :
    (¬ (POST envA fsB noFaults "p1" dbB "t" "s1").resp = forbiddenResp ↔
      ∃ r ∈ (["/real", "/real"] : List String), "/outside/doc.html" = r ∨
        strStartsWith "/outside/doc.html" (r ++ pathSep) = true) ∧
    ((["/real", "/real"] : List String) = [] →
      (POST envA fsB noFaults "p1" dbB "t" "s1").resp = forbiddenResp) ∧
    ("/outside/doc.html" ∈ (["/real", "/real"] : List String) →
      ¬ (POST envA fsB noFaults "p1" dbB "t" "s1").resp = forbiddenResp) :=
  c1_containment_iff envA fsB noFaults "p1" dbB "t" "s1" dB1 "/real/link.html"
    "/outside/doc.html" ["/real", "/real"] (by decide) (by decide) (by decide)
    (by decide) (by decide) (by decide) (by decide) (by decide)

/-- C2 counterexample: with no home configured, the expansion step does not
leave a `~`-path unchanged — the tilde is stripped, not left literal. -/
theorem c2_counterexample :
    ¬ (expandHome (homeOf ⟨none, none, none⟩) "~/doc.html" = "~/doc.html") := by decide

/-- C2 (amended): with no home configured (HOME unset or empty, making the
expansion string empty), a leading `~` is replaced by the empty string, so
every path beginning with `~` changes (the tilde does not remain literal);
a path not beginning with `~` is left unchanged. -/
theorem c2_amended :
    (∀ p, strStartsWith p "~" = true →
      expandHome "" p = strDrop p 1 ∧ expandHome "" p ≠ p) ∧
    (∀ p, strStartsWith p "~" = false → expandHome "" p = p) ∧
    (∀ w pr, homeOf ⟨none, w, pr⟩ = "" ∧ homeOf ⟨some "", w, pr⟩ = "") := by
  refine ⟨?_, ?_, ?_⟩
  · intro p h
    have he : expandHome "" p = strDrop p 1 := by
      rw [expandHome, if_pos h, empty_append_str]
    refine ⟨he, ?_⟩
    rw [he]
    cases p with
    | mk l =>
      cases l with
      | nil => exact absurd h (by decide)
      | cons c cs =>
        intro heq
        have h2 : cs = c :: cs := by
          have h3 := congrArg String.data heq
          simp [strDrop] at h3
        have h4 := congrArg List.length h2
        simp at h4
  · intro p h
    rw [expandHome, if_neg (by simp [h])]
  · intro w pr
    exact ⟨rfl, rfl⟩

/-- C2 witness for the amended statement at a concrete `~`-path. -/
theorem c2_amended_witness :
    expandHome "" "~/doc.html" = strDrop "~/doc.html" 1 ∧
      expandHome "" "~/doc.html" ≠ "~/doc.html" :=
  c2_amended.1 "~/doc.html" (by decide)

/-- C3 (code bug): when `page.goto` rejects, the route answers with the 500
render-failure response but never calls `browser.close()`: the trace holds
the launch of the engine and no teardown, so the engine process outlives
the call. -/
theorem c3_engine_leak :
    (POST envA fsA gotoFault "p1" dbA "t" "s2").resp = renderResp500 ∧
    Ev.launch ∈ (POST envA fsA gotoFault "p1" dbA "t" "s2").trace ∧
    Ev.close ∉ (POST envA fsA gotoFault "p1" dbA "t" "s2").trace := by decide

/-- C4 counterexample: on a successful render the produced pdf path
`/real/doc.pdf` is handed to the find-or-insert step although no
containment check ever ran on it — the only check in the whole invocation
is the one on the resolved source path. -/
theorem c4_counterexample :
    Ev.insert (newPdfRec "p1" "t" dA2 "/real/doc.pdf") ∈
      (POST envA fsA noFaults "p1" dbA "t" "s2").trace ∧
    (newPdfRec "p1" "t" dA2 "/real/doc.pdf").path = some "/real/doc.pdf" ∧
    Ev.sandboxCheck "/real/doc.pdf" ∉ (POST envA fsA noFaults "p1" dbA "t" "s2").trace ∧
    checksIn (POST envA fsA noFaults "p1" dbA "t" "s2").trace = ["/real/doc.html"] := by decide

/-- C4 (amended): the produced path is not re-validated: past the guards,
every execution performs exactly one containment check, on the resolved
source path, and every record handed to the insert step carries exactly the
derived pdf path — the source path with its extension substituted. -/
theorem c4_amended (env : Env) (fs : FS) (newId : String)
    (db : List Deliverable) (taskId deliverableId : String) (d : Deliverable)
    (rawPath resolvedSource : String) (roots : List String) (pdfPath : String)
    (hd : getDeliverable db deliverableId taskId = some d)
    (hp : d.path = some rawPath) (hne : rawPath ≠ "")
    (hty : d.deliverable_type = "file") (hhtml : isHtmlPath rawPath = true)
    (hex : fs.existsSync (sourcePathOf env rawPath) = true)
    (hres : fs.realpathSync (sourcePathOf env rawPath) = some resolvedSource)
    (hroots : effectiveRoots env fs = some roots)
    (hallow : isAllowed resolvedSource roots = true)
    (hpdf : replaceHtmlExtWith ".pdf" (sourcePathOf env rawPath) = pdfPath) :
    (∀ faults, checksIn (POST env fs faults newId db taskId deliverableId).trace =
      [resolvedSource]) ∧
    (∀ faults rec,
      Ev.insert rec ∈ (POST env fs faults newId db taskId deliverableId).trace →
        rec.path = some pdfPath) := by
  subst hpdf
  constructor
  · intro faults
    rw [POST_guards env fs faults newId db taskId deliverableId d rawPath resolvedSource roots
      hd hp hne hty hhtml hex hres hroots, if_pos hallow]
    show checksIn (Ev.sandboxCheck resolvedSource :: _) = _
    rw [checksIn_cons_sandbox, tryRender_checks]
  · intro faults rec hmem
    rw [POST_guards env fs faults newId db taskId deliverableId d rawPath resolvedSource roots
      hd hp hne hty hhtml hex hres hroots, if_pos hallow] at hmem
    rcases List.mem_cons.mp hmem with h | h
    · exact absurd h (by simp)
    · rw [tryRender_insert_mem _ _ _ _ _ _ _ _ h]
      rfl

/-- C4 witness for the amended statement: the successful concrete run checks
containment exactly once, on the resolved source. -/
theorem c4_amended_witness :
    checksIn (POST envA fsA noFaults "p1" dbA "t" "s2").trace = ["/real/doc.html"] :=
  (c4_amended envA fsA "p1" dbA "t" "s2" dA2 "/real/doc.html" "/real/doc.html"
    ["/real", "/real"] "/real/doc.pdf" (by decide) (by decide) (by decide) (by decide)
    (by decide) (by decide) (by decide) (by decide) (by decide) (by decide)).1 noFaults

/-- C5: two sequential renderToPdf calls for the same deliverable over an
unchanged filesystem store exactly one derived file record; the second call
returns by identity the record the first call created, leaves the store
unchanged, and emits no deliverable_added broadcast. -/
theorem c5_idempotent (env : Env) (fs : FS) (newId newId2 : String)
    (db : List Deliverable) (taskId deliverableId : String) (d : Deliverable)
    (rawPath resolvedSource : String) (roots : List String) (pdfPath : String)
    (hd : getDeliverable db deliverableId taskId = some d)
    (hp : d.path = some rawPath) (hne : rawPath ≠ "")
    (hty : d.deliverable_type = "file") (hhtml : isHtmlPath rawPath = true)
    (hex : fs.existsSync (sourcePathOf env rawPath) = true)
    (hres : fs.realpathSync (sourcePathOf env rawPath) = some resolvedSource)
    (hroots : effectiveRoots env fs = some roots)
    (hallow : isAllowed resolvedSource roots = true)
    (hpdf : replaceHtmlExtWith ".pdf" (sourcePathOf env rawPath) = pdfPath)
    (hnone : findPdf db taskId pdfPath = none)
    (hfresh : ∀ x ∈ db, x.id ≠ newId) :
    (POST env fs noFaults newId db taskId deliverableId).db =
      db ++ [newPdfRec newId taskId d pdfPath] ∧
    ((POST env fs noFaults newId db taskId deliverableId).db.filter fun x =>
      x.task_id == taskId && x.deliverable_type == "file" &&
        x.path == some pdfPath).length = 1 ∧
    (POST env fs noFaults newId db taskId deliverableId).resp =
      .success pdfPath (some (newPdfRec newId taskId d pdfPath)) ∧
    (POST env fs noFaults newId2
      (POST env fs noFaults newId db taskId deliverableId).db taskId deliverableId).resp =
      .success pdfPath (some (newPdfRec newId taskId d pdfPath)) ∧
    (POST env fs noFaults newId2
      (POST env fs noFaults newId db taskId deliverableId).db taskId deliverableId).db =
      (POST env fs noFaults newId db taskId deliverableId).db ∧
    (∀ payload, Ev.broadcast payload ∉
      (POST env fs noFaults newId2
        (POST env fs noFaults newId db taskId deliverableId).db taskId
          deliverableId).trace) := by
  subst hpdf
  have h1 := POST_guards env fs noFaults newId db taskId deliverableId d rawPath
    resolvedSource roots hd hp hne hty hhtml hex hres hroots
  rw [if_pos hallow,
    tryRender_noFaults_insert newId db taskId d resolvedSource _ hnone hfresh] at h1
  have hdb1 : (POST env fs noFaults newId db taskId deliverableId).db =
      db ++ [newPdfRec newId taskId d
        (replaceHtmlExtWith ".pdf" (sourcePathOf env rawPath))] := by
    rw [h1]
  have hd2 : getDeliverable
      (db ++ [newPdfRec newId taskId d
        (replaceHtmlExtWith ".pdf" (sourcePathOf env rawPath))]) deliverableId taskId =
      some d := find?_append_some hd
  have hsome2 : findPdf
      (db ++ [newPdfRec newId taskId d
        (replaceHtmlExtWith ".pdf" (sourcePathOf env rawPath))]) taskId
      (replaceHtmlExtWith ".pdf" (sourcePathOf env rawPath)) =
      some (newPdfRec newId taskId d
        (replaceHtmlExtWith ".pdf" (sourcePathOf env rawPath))) := by
    unfold findPdf at hnone ⊢
    rw [find?_append_none hnone]
    simp [List.find?, newPdfRec]
  have h2 := POST_guards env fs noFaults newId2
    (db ++ [newPdfRec newId taskId d
      (replaceHtmlExtWith ".pdf" (sourcePathOf env rawPath))])
    taskId deliverableId d rawPath resolvedSource roots hd2 hp hne hty hhtml hex hres hroots
  rw [if_pos hallow,
    tryRender_existing noFaults newId2 _ taskId d resolvedSource _ _ rfl rfl rfl rfl rfl
      hsome2] at h2
  refine ⟨hdb1, ?_, ?_, ?_, ?_, ?_⟩
  · rw [hdb1, List.filter_append]
    have hf1 : (db.filter fun x =>
        x.task_id == taskId && x.deliverable_type == "file" &&
          x.path == some (replaceHtmlExtWith ".pdf" (sourcePathOf env rawPath))) = [] := by
      rw [List.filter_eq_nil_iff]
      intro a ha
      exact (by simpa using List.find?_eq_none.mp hnone a ha)
    rw [hf1]
    simp [List.filter, newPdfRec]
  · rw [h1]
  · rw [hdb1, h2]
  · rw [hdb1, h2]
  · intro payload
    rw [hdb1, h2]
    simp [renderTrace]

/-- C5 witness on the concrete store: rendering `s1` twice. -/
theorem c5_idempotent_witness :
    (POST envA fsA noFaults "p1" dbA "t" "s1").db =
      dbA ++ [newPdfRec "p1" "t" dA1 "/link/doc.pdf"] ∧
    ((POST envA fsA noFaults "p1" dbA "t" "s1").db.filter fun x =>
      x.task_id == "t" && x.deliverable_type == "file" &&
        x.path == some "/link/doc.pdf").length = 1 ∧
    (POST envA fsA noFaults "p1" dbA "t" "s1").resp =
      .success "/link/doc.pdf" (some (newPdfRec "p1" "t" dA1 "/link/doc.pdf")) ∧
    (POST envA fsA noFaults "p2"
      (POST envA fsA noFaults "p1" dbA "t" "s1").db "t" "s1").resp =
      .success "/link/doc.pdf" (some (newPdfRec "p1" "t" dA1 "/link/doc.pdf")) ∧
    (POST envA fsA noFaults "p2"
      (POST envA fsA noFaults "p1" dbA "t" "s1").db "t" "s1").db =
      (POST envA fsA noFaults "p1" dbA "t" "s1").db ∧
    (∀ payload, Ev.broadcast payload ∉
      (POST envA fsA noFaults "p2"
        (POST envA fsA noFaults "p1" dbA "t" "s1").db "t" "s1").trace) :=
  c5_idempotent envA fsA "p1" "p2" dbA "t" "s1" dA1 "/link/doc.html" "/real/doc.html"
    ["/real", "/real"] "/link/doc.pdf" (by decide) (by decide) (by decide) (by decide)
    (by decide) (by decide) (by decide) (by decide) (by decide) (by decide) (by decide)
    (by decide)

/-- C6 counterexample: two calls supplying different raw spellings (one via
the `/link` symlink) of the same canonical source leave two stored records
for the same task, both of type file, whose stored paths resolve to the same
canonical file — the dedup key is the exact path string, not the resolved
file. -/
theorem c6_counterexample :
    newPdfRec "p1" "t" dA1 "/link/doc.pdf" ∈
      (POST envA fsA noFaults "p2"
        (POST envA fsA noFaults "p1" dbA "t" "s1").db "t" "s2").db ∧
    newPdfRec "p2" "t" dA2 "/real/doc.pdf" ∈
      (POST envA fsA noFaults "p2"
        (POST envA fsA noFaults "p1" dbA "t" "s1").db "t" "s2").db ∧
    newPdfRec "p1" "t" dA1 "/link/doc.pdf" ≠ newPdfRec "p2" "t" dA2 "/real/doc.pdf" ∧
    (newPdfRec "p1" "t" dA1 "/link/doc.pdf").task_id = "t" ∧
    (newPdfRec "p2" "t" dA2 "/real/doc.pdf").task_id = "t" ∧
    (newPdfRec "p1" "t" dA1 "/link/doc.pdf").deliverable_type = "file" ∧
    (newPdfRec "p2" "t" dA2 "/real/doc.pdf").deliverable_type = "file" ∧
    (newPdfRec "p1" "t" dA1 "/link/doc.pdf").path = some "/link/doc.pdf" ∧
    (newPdfRec "p2" "t" dA2 "/real/doc.pdf").path = some "/real/doc.pdf" ∧
    fsA.realpathSync "/link/doc.pdf" = some "/real/doc.pdf" ∧
    fsA.realpathSync "/real/doc.pdf" = some "/real/doc.pdf" := by decide

/-- C6 (amended): the dedup invariant renderToPdf maintains is keyed by the
exact derived path string (home-expanded and normalized, not
symlink-resolved): if no two stored records share a
(task_id, file, exact path) triple before a call, none do after it. -/
theorem c6_amended (env : Env) (fs : FS) (faults : Faults) (newId : String)
    (db : List Deliverable) (taskId deliverableId : String)
    (h : dedupOk db) :
    dedupOk (POST env fs faults newId db taskId deliverableId).db := by
  rcases POST_db_cases env fs faults newId db taskId deliverableId with
    hdb | ⟨pp, d2, hnone, hdb⟩
  · rw [hdb]
    exact h
  · rw [hdb]
    apply dedupOk_append db _ h
    intro a ha
    by_cases hk : fileKey a = some (taskId, pp)
    · exact absurd hk (findPdf_none_key db taskId pp hnone a ha)
    · right
      rw [fileKey_newPdfRec]
      exact hk

/-- C6 witness: preservation of the exact-string invariant on the concrete
store. -/
theorem c6_amended_witness :
    dedupOk (POST envA fsA noFaults "p1" dbA "t" "s1").db :=
  c6_amended envA fsA noFaults "p1" dbA "t" "s1" (by unfold dedupOk; decide)

/-- C7: a deliverable with no path, an empty path, a non-file type, or a
path failing the case-insensitive .htm/.html pattern is rejected with a 400
response before anything external runs: the trace is empty, so no engine
invocation occurs. -/
theorem c7_reject_before_launch (env : Env) (fs : FS) (faults : Faults) (newId : String)
    (db : List Deliverable) (taskId deliverableId : String) (d : Deliverable)
    (hd : getDeliverable db deliverableId taskId = some d)
    (h : d.path = none ∨ d.path = some "" ∨ d.deliverable_type ≠ "file" ∨
      d.path.map isHtmlPath = some false) :
    statusOf (POST env fs faults newId db taskId deliverableId).resp = 400 ∧
    (POST env fs faults newId db taskId deliverableId).trace = [] ∧
    Ev.launch ∉ (POST env fs faults newId db taskId deliverableId).trace := by
  unfold POST
  rcases h with h | h | h | h
  · simp [hd, h, statusOf]
  · simp [hd, h, statusOf]
  · cases hpa : d.path with
    | none => simp [hd, hpa, statusOf]
    | some raw =>
      by_cases hraw : raw = ""
      · simp [hd, hpa, hraw, statusOf]
      · simp [hd, hpa, hraw, h, statusOf]
  · cases hpa : d.path with
    | none => simp [hpa] at h
    | some raw =>
      rw [hpa] at h
      simp only [Option.map_some', Option.some.injEq] at h
      by_cases hraw : raw = ""
      · simp [hd, hpa, hraw, statusOf]
      · by_cases hty2 : d.deliverable_type = "file"
        · simp [hd, hpa, hraw, hty2, h, statusOf]
        · simp [hd, hpa, hraw, hty2, statusOf]

/-- C7 witness: a `.txt` deliverable is rejected with no external effect. -/
theorem c7_reject_before_launch_witness :
    statusOf (POST envA fsA noFaults "p1" dbC "t" "s1").resp = 400 ∧
    (POST envA fsA noFaults "p1" dbC "t" "s1").trace = [] ∧
    Ev.launch ∉ (POST envA fsA noFaults "p1" dbC "t" "s1").trace :=
  c7_reject_before_launch envA fsA noFaults "p1" dbC "t" "s1" dC1 (by decide)
    (Or.inr (Or.inr (Or.inr (by decide))))

/-- C8: the viewer's open action: a deliverable without a path is a no-op;
with a non-empty path, a url-typed deliverable opens the path directly as an
external link, and a file-typed deliverable opens the preview endpoint
exactly when the probe succeeds and the raw-download endpoint in every other
case (probe failure or probe exception). -/
theorem c8_handleOpen (enc : String → String) (d : Deliverable) (probe : ProbeOutcome) :
    (d.path = none → handleOpen enc d probe = .noop) ∧
    (∀ p, d.path = some p → p ≠ "" →
      (d.deliverable_type = "url" → handleOpen enc d probe = .openWindow p) ∧
      (d.deliverable_type = "file" →
        (probe = .ok → handleOpen enc d probe = .openWindow (previewUrl enc p)) ∧
        (probe ≠ .ok → handleOpen enc d probe = .openWindow (downloadUrl enc p)))) := by
  constructor
  · intro h
    unfold handleOpen
    rw [h]
  · intro p hpa hne
    constructor
    · intro hty
      unfold handleOpen
      rw [hpa]
      simp [hne, hty]
    · intro hty
      constructor
      · intro hprobe
        unfold handleOpen
        rw [hpa]
        simp [hne, hty, hprobe]
      · intro hprobe
        unfold handleOpen
        rw [hpa]
        cases probe with
        | ok => exact absurd rfl hprobe
        | notOk => simp [hne, hty]
        | throws => simp [hne, hty]

/-- C8 witness: the four concrete decision branches. -/
theorem c8_handleOpen_witness :
    handleOpen id ⟨"d1", "t", "url", "L", some "http://a", ""⟩ ProbeOutcome.throws =
      .openWindow "http://a" ∧
    handleOpen id ⟨"d2", "t", "file", "F", some "/x", ""⟩ ProbeOutcome.ok =
      .openWindow (previewUrl id "/x") ∧
    handleOpen id ⟨"d3", "t", "file", "F", some "/x", ""⟩ ProbeOutcome.throws =
      .openWindow (downloadUrl id "/x") ∧
    handleOpen id ⟨"d4", "t", "file", "F", none, ""⟩ ProbeOutcome.ok = .noop :=
  ⟨((c8_handleOpen id ⟨"d1", "t", "url", "L", some "http://a", ""⟩ ProbeOutcome.throws).2
      "http://a" rfl (by decide)).1 rfl,
   (((c8_handleOpen id ⟨"d2", "t", "file", "F", some "/x", ""⟩ ProbeOutcome.ok).2
      "/x" rfl (by decide)).2 rfl).1 rfl,
   (((c8_handleOpen id ⟨"d3", "t", "file", "F", some "/x", ""⟩ ProbeOutcome.throws).2
      "/x" rfl (by decide)).2 rfl).2 (by decide),
   (c8_handleOpen id ⟨"d4", "t", "file", "F", none, ""⟩ ProbeOutcome.ok).1 rfl⟩

/-- C9: the inserted record's title is the source title with a trailing
case-insensitive .htm/.html extension stripped and ".pdf" appended;
"Report.html" yields "Report.pdf", and a title without the extension is
left unchanged by the strip step ("Notes" yields "Notes.pdf"). -/
theorem c9_title (env : Env) (fs : FS) (newId : String)
    (db : List Deliverable) (taskId deliverableId : String) (d : Deliverable)
    (rawPath resolvedSource : String) (roots : List String) (pdfPath : String)
    (hd : getDeliverable db deliverableId taskId = some d)
    (hp : d.path = some rawPath) (hne : rawPath ≠ "")
    (hty : d.deliverable_type = "file") (hhtml : isHtmlPath rawPath = true)
    (hex : fs.existsSync (sourcePathOf env rawPath) = true)
    (hres : fs.realpathSync (sourcePathOf env rawPath) = some resolvedSource)
    (hroots : effectiveRoots env fs = some roots)
    (hallow : isAllowed resolvedSource roots = true)
    (hpdf : replaceHtmlExtWith ".pdf" (sourcePathOf env rawPath) = pdfPath)
    (hnone : findPdf db taskId pdfPath = none)
    (hfresh : ∀ x ∈ db, x.id ≠ newId) :
    (POST env fs noFaults newId db taskId deliverableId).db =
      db ++ [⟨newId, taskId, "file", deriveTitle d.title, some pdfPath,
        "Generated from HTML deliverable"⟩] ∧
    deriveTitle "Report.html" = "Report.pdf" ∧
    deriveTitle "Notes" = "Notes.pdf" ∧
    (∀ t, isHtmlPath t = false → deriveTitle t = t ++ ".pdf") := by
  subst hpdf
  have h1 := POST_guards env fs noFaults newId db taskId deliverableId d rawPath
    resolvedSource roots hd hp hne hty hhtml hex hres hroots
  rw [if_pos hallow,
    tryRender_noFaults_insert newId db taskId d resolvedSource _ hnone hfresh] at h1
  refine ⟨by rw [h1]; rfl, by decide, by decide, ?_⟩
  intro t ht
  unfold isHtmlPath at ht
  simp only [Bool.or_eq_false_iff] at ht
  unfold deriveTitle replaceHtmlExtWith
  rw [if_neg (by simp [ht.1]), if_neg (by simp [ht.2])]

/-- C9 witness: the concrete run derives "Doc.pdf" from "Doc.html". -/
theorem c9_title_witness :
    (POST envA fsA noFaults "p1" dbA "t" "s2").db =
      dbA ++ [⟨"p1", "t", "file", deriveTitle dA2.title, some "/real/doc.pdf",
        "Generated from HTML deliverable"⟩] ∧
    deriveTitle "Report.html" = "Report.pdf" ∧
    deriveTitle "Notes" = "Notes.pdf" ∧
    (∀ t, isHtmlPath t = false → deriveTitle t = t ++ ".pdf") :=
  c9_title envA fsA "p1" dbA "t" "s2" dA2 "/real/doc.html" "/real/doc.html"
    ["/real", "/real"] "/real/doc.pdf" (by decide) (by decide) (by decide) (by decide)
    (by decide) (by decide) (by decide) (by decide) (by decide) (by decide) (by decide)
    (by decide)

/-- C10: past a successful containment check, every injected exception is
reported as the identical 500 render-failure response: any engine-step fault
yields it; an insert fault yields it with the store unchanged; a re-read or
broadcast fault yields it even though the new record was already inserted;
and no post-guard run produces anything but that 500 or a success carrying
the derived pdf path. -/
theorem c10_render_failure (env : Env) (fs : FS) (faults : Faults) (newId : String)
    (db : List Deliverable) (taskId deliverableId : String) (d : Deliverable)
    (rawPath resolvedSource : String) (roots : List String) (pdfPath : String)
    (hd : getDeliverable db deliverableId taskId = some d)
    (hp : d.path = some rawPath) (hne : rawPath ≠ "")
    (hty : d.deliverable_type = "file") (hhtml : isHtmlPath rawPath = true)
    (hex : fs.existsSync (sourcePathOf env rawPath) = true)
    (hres : fs.realpathSync (sourcePathOf env rawPath) = some resolvedSource)
    (hroots : effectiveRoots env fs = some roots)
    (hallow : isAllowed resolvedSource roots = true)
    (hpdf : replaceHtmlExtWith ".pdf" (sourcePathOf env rawPath) = pdfPath) :
    ((POST env fs faults newId db taskId deliverableId).resp = renderResp500 ∨
      ∃ od, (POST env fs faults newId db taskId deliverableId).resp =
        Resp.success pdfPath od) ∧
    ((faults.launch || faults.newPage || faults.goto || faults.pdf || faults.close) = true →
      (POST env fs faults newId db taskId deliverableId).resp = renderResp500) ∧
    (faults.launch = false → faults.newPage = false → faults.goto = false →
      faults.pdf = false → faults.close = false → findPdf db taskId pdfPath = none →
      ((faults.insert = true →
        (POST env fs faults newId db taskId deliverableId).resp = renderResp500 ∧
        (POST env fs faults newId db taskId deliverableId).db = db) ∧
       (faults.insert = false → faults.reread = true →
        (POST env fs faults newId db taskId deliverableId).resp = renderResp500 ∧
        (POST env fs faults newId db taskId deliverableId).db =
          db ++ [newPdfRec newId taskId d pdfPath]) ∧
       (faults.insert = false → faults.reread = false → faults.broadcast = true →
        (POST env fs faults newId db taskId deliverableId).resp = renderResp500 ∧
        (POST env fs faults newId db taskId deliverableId).db =
          db ++ [newPdfRec newId taskId d pdfPath]))) := by
  subst hpdf
  have hP := POST_guards env fs faults newId db taskId deliverableId d rawPath
    resolvedSource roots hd hp hne hty hhtml hex hres hroots
  rw [if_pos hallow] at hP
  refine ⟨?_, ?_, ?_⟩
  · rw [hP]
    exact tryRender_resp_cases faults newId db taskId d resolvedSource _
  · intro h
    rw [hP]
    exact tryRender_engine_fault faults newId db taskId d resolvedSource _ h
  · intro hfl hnp hg hpd hc hnone
    obtain ⟨hi1, hi2, hi3⟩ := tryRender_publish_fault faults newId db taskId d
      resolvedSource _ hfl hnp hg hpd hc hnone
    refine ⟨fun hA => ?_, fun hA hB => ?_, fun hA hB hC => ?_⟩
    · rw [hP, hi1 hA]
      exact ⟨rfl, rfl⟩
    · rw [hP, hi2 hA hB]
      exact ⟨rfl, rfl⟩
    · rw [hP, hi3 hA hB hC]
      exact ⟨rfl, rfl⟩

/-- C10 witness: a failing INSERT after a successful render is reported as
the 500 render failure with the store unchanged. -/
theorem c10_render_failure_witness :
    ((POST envA fsA insertFault "p1" dbA "t" "s2").resp = renderResp500 ∧
      (POST envA fsA insertFault "p1" dbA "t" "s2").db = dbA) ∧
    ((POST envA fsA insertFault "p1" dbA "t" "s2").resp = renderResp500 ∨
      ∃ od, (POST envA fsA insertFault "p1" dbA "t" "s2").resp =
        Resp.success "/real/doc.pdf" od) :=
  ⟨((c10_render_failure envA fsA insertFault "p1" dbA "t" "s2" dA2 "/real/doc.html"
      "/real/doc.html" ["/real", "/real"] "/real/doc.pdf" (by decide) (by decide)
      (by decide) (by decide) (by decide) (by decide) (by decide) (by decide) (by decide)
      (by decide)).2.2 rfl rfl rfl rfl rfl (by decide)).1 rfl,
   (c10_render_failure envA fsA insertFault "p1" dbA "t" "s2" dA2 "/real/doc.html"
      "/real/doc.html" ["/real", "/real"] "/real/doc.pdf" (by decide) (by decide)
      (by decide) (by decide) (by decide) (by decide) (by decide) (by decide) (by decide)
      (by decide)).1⟩

end MissionControl
